import Mathlib

/-!
Verification of the `netx` duplex copy engine (`copy.go`), as a shallow
embedding in Lean.

`doCopy` in the Go source is a loop interacting with two connections and a
shared atomic stop flag.  We embed it as a deterministic function over an
oracle trace: each loop iteration is driven by an `IterInput` recording what
the environment answered at that iteration (the value returned by the atomic
load of the stop flag, the result `(nr, er)` of `src.Read`, and the result
`(nw, ew)` of `dst.Write` — the latter consulted only when `nr > 0`, exactly
as in the source).  The embedding also records the externally visible actions
the loop performs (deadline arming, reads, writes, the deferred stop-flag
store, drain-deadline arm and error send), so that ordering claims about the
shutdown protocol can be stated.
-/

namespace Netx

/-- Errors as Go sees them in `copy.go`: `io.EOF` and `io.ErrShortWrite` are
distinguished sentinel values (Go compares `er == io.EOF` by identity), and
any other error is characterised by its textual message, which is all
`isTimeout` inspects. The message is modelled as a list of characters. -/
inductive GoError where
  | eof
  | errShortWrite
  | mk (msg : List Char)
deriving DecidableEq, Repr

/-- The textual message of an error, as returned by Go's `err.Error()`. -/
def GoError.message : GoError → List Char
  | .eof => "EOF".toList
  | .errShortWrite => "short write".toList
  | .mk s => s

/-- `const ioTimeout = "i/o timeout"` from `copy.go`. -/
def ioTimeout : List Char := "i/o timeout".toList

/-- `const ioTimeoutLength = 11` from `copy.go`. -/
def ioTimeoutLength : Nat := 11

/-- `func isTimeout(err error) bool`: true when the message has length at
least `ioTimeoutLength` and its final `ioTimeoutLength` characters equal the
sentinel `ioTimeout`. -/
def isTimeout (err : GoError) : Bool :=
  let es := err.message
  let esl := es.length
  decide (esl ≥ ioTimeoutLength) && decide (es.drop (esl - ioTimeoutLength) = ioTimeout)

/-- `copyTimeout = 1 * time.Second` from `copy.go`, in milliseconds: the
drain deadline armed on reads during shutdown. -/
def copyTimeout : Nat := 1000

/-- The environment's answers for one iteration of the `doCopy` loop:
`stopLoad` is the value returned by `atomic.LoadUint32(stop) == 1`,
`(nr, er)` the result of `src.Read(buf)`, and `(nw, ew)` the result of
`dst.Write(buf[0:nr])` (consulted only when `nr > 0`). -/
structure IterInput where
  stopLoad : Bool
  nr : Nat
  er : Option GoError
  nw : Nat
  ew : Option GoError
deriving DecidableEq, Repr

/-- Externally visible actions of `doCopy`, in program order.  Deadline
actions carry the duration they arm (`copyTimeout` for the drain deadline,
the caller's `writeTimeout` for write deadlines). -/
inductive Action where
  | loadStop (b : Bool)
  | srcSetReadDeadline (d : Nat)
  | read (nr : Nat) (er : Option GoError)
  | dstSetWriteDeadline (d : Nat)
  | write (n : Nat) (nw : Nat) (ew : Option GoError)
  | storeStop
  | dstSetReadDeadline (d : Nat)
  | sendErr (e : Option GoError)
deriving DecidableEq, Repr

/-- The read-error classification at the tail of each `doCopy` iteration
(`copy.go` lines 59–71): `er == io.EOF` returns with the current `err`;
a timeout returns with the current `err` when `stopping`, else the loop
continues; any other non-nil `er` is assigned to `err` and returned.
`some r` means the loop returns with terminal error `r`; `none` means it
continues. -/
def readClass (stopping : Bool) (er : Option GoError) (err : Option GoError) :
    Option (Option GoError) :=
  match er with
  | none => none
  | some e =>
    if e = GoError.eof then some err
    else if isTimeout e then
      if stopping then some err else none
    else some (some e)

/-- The `for` loop of `doCopy`, driven by the oracle trace.  The `err`
argument is the function-local `var err error` accumulator.  Returns the
actions performed and `some e` when the loop returned with terminal error
`e`, or `none` when the trace was exhausted with the loop still running. -/
def doCopyLoop (writeTimeout : Nat) :
    Option GoError → List IterInput → List Action × Option (Option GoError)
  | _, [] => ([], none)
  | err, i :: rest =>
    let stopping := i.stopLoad
    let pre : List Action :=
      Action.loadStop stopping ::
        (if stopping then [Action.srcSetReadDeadline copyTimeout] else []) ++
        [Action.read i.nr i.er]
    if 0 < i.nr then
      let wacts : List Action :=
        [Action.dstSetWriteDeadline writeTimeout, Action.write i.nr i.nw i.ew]
      let err1 := if err.isSome then i.ew else err
      if i.nw ≠ i.nr then
        (pre ++ wacts, some (some GoError.errShortWrite))
      else
        match readClass stopping i.er err1 with
        | some res => (pre ++ wacts, some res)
        | none =>
          let r := doCopyLoop writeTimeout err1 rest
          (pre ++ wacts ++ r.1, r.2)
    else
      match readClass stopping i.er err with
      | some res => (pre, some res)
      | none =>
        let r := doCopyLoop writeTimeout err rest
        (pre ++ r.1, r.2)

/-- `func doCopy`: the loop together with its deferred epilogue
(`atomic.StoreUint32(stop, 1)`, `dst.SetReadDeadline(now + copyTimeout)`,
`errCh <- err`), which runs exactly when the function returns. -/
def doCopy (writeTimeout : Nat) (trace : List IterInput) :
    List Action × Option (Option GoError) :=
  let r := doCopyLoop writeTimeout none trace
  match r.2 with
  | some e =>
      (r.1 ++ [Action.storeStop, Action.dstSetReadDeadline copyTimeout,
        Action.sendErr e], some e)
  | none => r

/-- The first value a receive on the copier's error channel would yield:
the payload of the first `sendErr` in the action list, if any. -/
def sentValue : List Action → Option (Option GoError)
  | [] => none
  | Action.sendErr e :: _ => some e
  | _ :: rest => sentValue rest

/-- `func BidiCopy`: starts one copier per direction (each driven here by
its own oracle trace) and receives one error from each copier's channel.
`none` models the blocking receive never completing because that copier
never terminated. -/
def BidiCopy (writeTimeout : Nat) (traceOut traceIn : List IterInput) :
    Option (Option GoError × Option GoError) :=
  match sentValue (doCopy writeTimeout traceOut).1,
        sentValue (doCopy writeTimeout traceIn).1 with
  | some outErr, some inErr => some (outErr, inErr)
  | _, _ => none

/-- Semantics of the stop flag under one action: the only mutation in the
program is `atomic.StoreUint32(stop, 1)`, which sets it to true. -/
def stepStop (s : Bool) (a : Action) : Bool :=
  match a with
  | Action.storeStop => true
  | _ => s

/-- The stop flag's value after a sequence of actions starting from `s`. -/
def stopValue (s : Bool) (acts : List Action) : Bool :=
  acts.foldl stepStop s

/-- The number of false→true transitions of the stop flag along a sequence
of actions starting from state `s`. -/
def transCount : Bool → List Action → Nat
  | _, [] => 0
  | s, a :: rest =>
    let s2 := stepStop s a
    (if s = false ∧ s2 = true then 1 else 0) + transCount s2 rest

/-- Whether an action is a read from the source connection. -/
def Action.isRead : Action → Bool
  | Action.read _ _ => true
  | _ => false

/-- Whether an action is a write to the destination connection. -/
def Action.isWrite : Action → Bool
  | Action.write _ _ _ => true
  | _ => false

/-- Whether an action arms a read deadline on the source connection. -/
def Action.isSrcReadArm : Action → Bool
  | Action.srcSetReadDeadline _ => true
  | _ => false

/-! ## Helper lemmas -/

theorem stepStop_true (a : Action) : stepStop true a = true := by
  cases a <;> rfl

theorem stopValue_true (acts : List Action) : stopValue true acts = true := by
  induction acts with
  | nil => rfl
  | cons a l ih =>
      simp only [stopValue, List.foldl_cons, stepStop_true] at *
      exact ih

theorem transCount_true (acts : List Action) : transCount true acts = 0 := by
  induction acts with
  | nil => rfl
  | cons a l ih =>
      simp only [transCount, stepStop_true]
      simpa using ih

theorem transCount_false_le_one (acts : List Action) : transCount false acts ≤ 1 := by
  induction acts with
  | nil => simp [transCount]
  | cons a l ih =>
      cases a <;> simp [transCount, stepStop, transCount_true] <;> try exact ih

theorem loop_no_sendErr (w : Nat) (err : Option GoError) (t : List IterInput)
    (e : Option GoError) : Action.sendErr e ∉ (doCopyLoop w err t).1 := by
  induction t generalizing err with
  | nil => simp [doCopyLoop]
  | cons i rest ih =>
      simp only [doCopyLoop]
      split
      · split
        · simp
        · split
          · simp
          · simp
            exact fun h => ih _ h
      · split
        · simp
        · simp
          exact fun h => ih _ h

theorem sentValue_append_of_none (l1 l2 : List Action) (h : sentValue l1 = none) :
    sentValue (l1 ++ l2) = sentValue l2 := by
  induction l1 with
  | nil => simp
  | cons a l ih =>
      cases a <;> simp only [sentValue, List.cons_append] at h ⊢ <;> first
        | exact ih h
        | exact absurd h (by simp)

theorem sentValue_of_not_mem (l : List Action) (h : ∀ e, Action.sendErr e ∉ l) :
    sentValue l = none := by
  induction l with
  | nil => rfl
  | cons a t ih =>
      cases a <;> simp only [sentValue] <;> first
        | exact ih (fun e he => h e (List.mem_cons_of_mem _ he))
        | exact absurd (List.mem_cons_self _ _) (by intro hc; exact (h _ hc))

theorem sentValue_loop (w : Nat) (err : Option GoError) (t : List IterInput) :
    sentValue (doCopyLoop w err t).1 = none :=
  sentValue_of_not_mem _ (fun e => loop_no_sendErr w err t e)

theorem doCopy_actions_of_terminated (w : Nat) (t : List IterInput) (e : Option GoError)
    (h : (doCopy w t).2 = some e) :
    (doCopy w t).1 = (doCopyLoop w none t).1 ++
      [Action.storeStop, Action.dstSetReadDeadline copyTimeout, Action.sendErr e] := by
  unfold doCopy at h ⊢
  cases h2 : (doCopyLoop w none t).2 with
  | none => simp [h2] at h
  | some e2 =>
      simp [h2] at h ⊢
      rw [h]

theorem doCopy_sentValue (w : Nat) (t : List IterInput) (e : Option GoError)
    (h : (doCopy w t).2 = some e) :
    sentValue (doCopy w t).1 = some e := by
  rw [doCopy_actions_of_terminated w t e h,
    sentValue_append_of_none _ _ (sentValue_loop w none t)]
  rfl

theorem doCopy_sentValue_none (w : Nat) (t : List IterInput)
    (h : (doCopy w t).2 = none) :
    sentValue (doCopy w t).1 = none := by
  unfold doCopy at h ⊢
  cases h2 : (doCopyLoop w none t).2 with
  | none => simp [h2]; exact sentValue_loop w none t
  | some e2 => simp [h2] at h

/-! ## Claim theorems -/

/-- C1: the spec claims every non-timeout I/O failure — a read failure or a
write failure — terminates the direction with that exact error propagated
verbatim.  The code does this for read errors but not for write errors:
evaluated at a write that transfers all bytes yet reports the non-timeout
error "boom", the loop continues and the direction later terminates with a
nil error; at a write that transfers fewer bytes while reporting "boom",
the direction terminates with `io.ErrShortWrite`, not "boom".  In neither
case is the write error propagated (the guard `if err != nil` on the line
that would capture `ew` can never fire, since `err` is still nil there). -/
theorem write_error_not_propagated :
    (doCopy 60000 [⟨false, 4, none, 4, some (GoError.mk "boom".toList)⟩,
        ⟨false, 0, some GoError.eof, 0, none⟩]).2 = some none ∧
    (doCopy 60000 [⟨false, 4, none, 2, some (GoError.mk "boom".toList)⟩]).2 =
        some (some GoError.errShortWrite) := by
  decide

/-- C2: whenever a write transfers fewer bytes than were just read
(`nw < nr`), the direction terminates at once with `io.ErrShortWrite`,
having performed exactly one read and exactly one write in total: the write
is never retried and no further read from the source happens. -/
theorem short_write_terminates (w : Nat) (i : IterInput) (rest : List IterInput)
    (h1 : 0 < i.nr) (h2 : i.nw < i.nr) :
    (doCopy w (i :: rest)).2 = some (some GoError.errShortWrite) ∧
    (doCopy w (i :: rest)).1.countP (fun a => a.isRead) = 1 ∧
    (doCopy w (i :: rest)).1.countP (fun a => a.isWrite) = 1 := by
  have hne : i.nw ≠ i.nr := Nat.ne_of_lt h2
  cases hb : i.stopLoad <;>
    simp [doCopy, doCopyLoop, h1, hne, hb, List.countP_cons, List.countP_append,
      Action.isRead, Action.isWrite]

/-- Witness for `short_write_terminates`: a 3-byte read answered by a 1-byte
write terminates with the short-write error after one read and one write. -/
theorem short_write_terminates_witness :
    (doCopy 60000 [⟨false, 3, none, 1, none⟩]).2 = some (some GoError.errShortWrite) ∧
    (doCopy 60000 [⟨false, 3, none, 1, none⟩]).1.countP (fun a => a.isRead) = 1 ∧
    (doCopy 60000 [⟨false, 3, none, 1, none⟩]).1.countP (fun a => a.isWrite) = 1 :=
  short_write_terminates 60000 ⟨false, 3, none, 1, none⟩ [] (by decide) (by decide)

/-- C3: classification of a non-nil read error when the write (if any)
transferred all bytes: end-of-stream terminates with a nil terminal error;
a timeout-shaped error terminates with a nil terminal error when the
iteration's stop-flag snapshot was set, and otherwise the loop continues
with the same eventual outcome as if the iteration had not happened (the
timeout is not surfaced); any other error terminates with that error. -/
theorem read_error_classification (w : Nat) (i : IterInput) (rest : List IterInput)
    (e : GoError) (her : i.er = some e) (hw : i.nw = i.nr) :
    (e = GoError.eof → (doCopy w (i :: rest)).2 = some none) ∧
    (isTimeout e = true → i.stopLoad = true → (doCopy w (i :: rest)).2 = some none) ∧
    (isTimeout e = true → i.stopLoad = false →
      (doCopyLoop w none (i :: rest)).2 = (doCopyLoop w none rest).2) ∧
    (e ≠ GoError.eof → isTimeout e = false → (doCopy w (i :: rest)).2 = some (some e)) := by
  refine ⟨?_, ?_, ?_, ?_⟩
  · intro he
    by_cases hnr : 0 < i.nr <;>
      simp [doCopy, doCopyLoop, hnr, her, he, hw, readClass]
  · intro ht hs
    have hne : e ≠ GoError.eof := by
      intro hc
      rw [hc] at ht
      exact absurd ht (by decide)
    by_cases hnr : 0 < i.nr <;>
      simp [doCopy, doCopyLoop, hnr, her, hs, hw, readClass, hne, ht]
  · intro ht hs
    have hne : e ≠ GoError.eof := by
      intro hc
      rw [hc] at ht
      exact absurd ht (by decide)
    by_cases hnr : 0 < i.nr <;>
      simp [doCopyLoop, hnr, her, hs, hw, readClass, hne, ht]
  · intro hne ht
    by_cases hnr : 0 < i.nr <;>
      simp [doCopy, doCopyLoop, hnr, her, hw, readClass, hne, ht]

/-- Witness for `read_error_classification`: with the stop flag observed set,
a read failing with a timeout-shaped error terminates with a nil error. -/
theorem read_error_classification_witness :
    (doCopy 60000 [⟨true, 0, some (GoError.mk "read: i/o timeout".toList), 0, none⟩]).2
      = some none :=
  (read_error_classification 60000
      ⟨true, 0, some (GoError.mk "read: i/o timeout".toList), 0, none⟩ []
      (GoError.mk "read: i/o timeout".toList) rfl rfl).2.1 (by decide) rfl

/-- C4: `BidiCopy` returns the pair of terminal errors exactly as each
directional copier reported them, whenever both copiers terminate — neither
error is suppressed or altered based on the other — and it does not return
at all (modelled as `none`) while either copier has not terminated. -/
theorem bidiCopy_reports_both (w : Nat) (t1 t2 : List IterInput) :
    (∀ e1 e2, (doCopy w t1).2 = some e1 → (doCopy w t2).2 = some e2 →
      BidiCopy w t1 t2 = some (e1, e2)) ∧
    ((doCopy w t1).2 = none ∨ (doCopy w t2).2 = none → BidiCopy w t1 t2 = none) := by
  constructor
  · intro e1 e2 h1 h2
    unfold BidiCopy
    rw [doCopy_sentValue w t1 e1 h1, doCopy_sentValue w t2 e2 h2]
  · intro h
    unfold BidiCopy
    rcases h with h | h
    · rw [doCopy_sentValue_none w t1 h]
    · rw [doCopy_sentValue_none w t2 h]
      cases sentValue (doCopy w t1).1 <;> rfl

/-- Witness for `bidiCopy_reports_both`: two immediately-EOF directions make
`BidiCopy` return both nil errors. -/
theorem bidiCopy_reports_both_witness :
    BidiCopy 60000 [⟨false, 0, some GoError.eof, 0, none⟩]
      [⟨false, 0, some GoError.eof, 0, none⟩] = some (none, none) :=
  (bidiCopy_reports_both 60000 _ _).1 none none (by decide) (by decide)

/-- C5: the shared stop flag starts false, the program's only store writes
true (`stepStop` is the flag semantics of the single
`atomic.StoreUint32(stop, 1)`), so along any action sequence the flag makes
at most one false→true transition and is never cleared once set; and every
iteration of the copy loop begins by loading (snapshotting) the flag. -/
theorem stop_flag_protocol :
    stopValue false [] = false ∧
    (∀ acts : List Action, stopValue true acts = true) ∧
    (∀ acts : List Action, transCount false acts ≤ 1) ∧
    (∀ (w : Nat) (err : Option GoError) (i : IterInput) (rest : List IterInput),
      (doCopyLoop w err (i :: rest)).1.head? = some (Action.loadStop i.stopLoad)) := by
  refine ⟨rfl, stopValue_true, transCount_false_le_one, ?_⟩
  intro w err i rest
  simp only [doCopyLoop]
  split
  · split
    · rfl
    · split <;> rfl
  · split <;> rfl

/-- C6: on every termination path the copier's action sequence ends with the
deferred epilogue — set the shared stop flag, arm the drain deadline
(`copyTimeout`) on the destination's read side, then report the terminal
error — and no error report happens before that epilogue. -/
theorem termination_sets_stop_and_drains (w : Nat) (t : List IterInput)
    (e : Option GoError) (h : (doCopy w t).2 = some e) :
    (doCopy w t).1 = (doCopyLoop w none t).1 ++
      [Action.storeStop, Action.dstSetReadDeadline copyTimeout, Action.sendErr e] ∧
    sentValue (doCopyLoop w none t).1 = none :=
  ⟨doCopy_actions_of_terminated w t e h, sentValue_loop w none t⟩

/-- Witness for `termination_sets_stop_and_drains`, at an immediate EOF. -/
theorem termination_sets_stop_and_drains_witness :
    (doCopy 60000 [⟨false, 0, some GoError.eof, 0, none⟩]).1 =
      (doCopyLoop 60000 none [⟨false, 0, some GoError.eof, 0, none⟩]).1 ++
        [Action.storeStop, Action.dstSetReadDeadline copyTimeout, Action.sendErr none] ∧
    sentValue (doCopyLoop 60000 none [⟨false, 0, some GoError.eof, 0, none⟩]).1 = none :=
  termination_sets_stop_and_drains 60000 _ none (by decide)

/-- C7 counterexample: a copier that terminates on an immediate EOF (the
"first copier to terminate" scenario, its stop-flag snapshot still false)
never arms a read deadline on its own source — refuting the claim that the
first terminating copier arms a short read deadline on its own source.  The
deadline it arms is on the destination (see `terminator_arms_dst`). -/
theorem terminator_arms_dst_not_src_cex :
    (doCopy 60000 [⟨false, 0, some GoError.eof, 0, none⟩]).2 = some none ∧
    (doCopy 60000 [⟨false, 0, some GoError.eof, 0, none⟩]).1.countP
      (fun a => a.isSrcReadArm) = 0 := by
  decide

/-- C7 (amended): a copier that terminates (EOF or fatal error) flips the
shared stop flag and arms the short drain deadline on its destination's
read side — the connection the opposite copier reads from, so that the
other copier unblocks promptly. -/
theorem terminator_arms_dst (w : Nat) (t : List IterInput) (e : Option GoError)
    (h : (doCopy w t).2 = some e) :
    Action.storeStop ∈ (doCopy w t).1 ∧
    Action.dstSetReadDeadline copyTimeout ∈ (doCopy w t).1 := by
  rw [doCopy_actions_of_terminated w t e h]
  simp

/-- Witness for `terminator_arms_dst`, at an immediate EOF. -/
theorem terminator_arms_dst_witness :
    Action.storeStop ∈ (doCopy 60000 [⟨false, 0, some GoError.eof, 0, none⟩]).1 ∧
    Action.dstSetReadDeadline copyTimeout ∈
      (doCopy 60000 [⟨false, 0, some GoError.eof, 0, none⟩]).1 :=
  terminator_arms_dst 60000 _ none (by decide)

/-- C8: every loop iteration starts by snapshotting the stop flag, then —
when the snapshot is set — arms the drain deadline (`copyTimeout`) on the
source's read side, and only then performs the read: the very next read
after the flag is observed set runs under the drain deadline, which is
independent of the caller's write timeout. -/
theorem snapshot_before_read (w : Nat) (err : Option GoError) (i : IterInput)
    (rest : List IterInput) :
    ∃ tl, (doCopyLoop w err (i :: rest)).1 =
      Action.loadStop i.stopLoad ::
        ((if i.stopLoad then [Action.srcSetReadDeadline copyTimeout] else []) ++
          (Action.read i.nr i.er :: tl)) := by
  simp only [doCopyLoop]
  split
  · split
    · exact ⟨[Action.dstSetWriteDeadline w, Action.write i.nr i.nw i.ew], by simp⟩
    · split
      · exact ⟨[Action.dstSetWriteDeadline w, Action.write i.nr i.nw i.ew], by simp⟩
      · exact ⟨Action.dstSetWriteDeadline w :: Action.write i.nr i.nw i.ew ::
          (doCopyLoop w (if err.isSome = true then i.ew else err) rest).1, by simp⟩
  · split
    · exact ⟨[], by simp⟩
    · exact ⟨(doCopyLoop w err rest).1, by simp⟩

/-- C9: `isTimeout` returns true exactly when the error's textual message is
at least `ioTimeoutLength` (11) characters long and ends with the sentinel
suffix `ioTimeout` ("i/o timeout"); in particular any shorter message yields
false. -/
theorem isTimeout_iff_suffix (e : GoError) :
    isTimeout e = true ↔
      ioTimeoutLength ≤ e.message.length ∧ ioTimeout <:+ e.message := by
  unfold isTimeout
  simp only [Bool.and_eq_true, decide_eq_true_eq, ge_iff_le]
  have hlen : ioTimeout.length = ioTimeoutLength := rfl
  constructor
  · rintro ⟨h1, h2⟩
    refine ⟨h1, ?_⟩
    rw [List.suffix_iff_eq_drop, hlen]
    exact h2.symm
  · rintro ⟨h1, h2⟩
    refine ⟨h1, ?_⟩
    have h3 := List.suffix_iff_eq_drop.mp h2
    rw [hlen] at h3
    exact h3.symm

/-- C10: a write that reports an error while transferring the full number of
bytes read (`nw = nr`, `ew ≠ nil`) is silently discarded: with no read
error in that iteration, the loop's eventual outcome is exactly the outcome
of the remaining iterations — the loop proceeds to the next read and the
write error never becomes the direction's terminal result — even though the
erroring write did occur. -/
theorem full_write_error_discarded (w : Nat) (i : IterInput) (rest : List IterInput)
    (we : GoError) (h1 : 0 < i.nr) (h2 : i.nw = i.nr) (h3 : i.er = none)
    (h4 : i.ew = some we) :
    (doCopyLoop w none (i :: rest)).2 = (doCopyLoop w none rest).2 ∧
    Action.write i.nr i.nw (some we) ∈ (doCopyLoop w none (i :: rest)).1 := by
  simp [doCopyLoop, h1, h2, h3, h4, readClass]

/-- Witness for `full_write_error_discarded`: a full 2-byte write reporting
"boom" leaves the outcome that of the remaining trace. -/
theorem full_write_error_discarded_witness :
    (doCopyLoop 60000 none [⟨false, 2, none, 2, some (GoError.mk "boom".toList)⟩,
        ⟨false, 0, some GoError.eof, 0, none⟩]).2 =
      (doCopyLoop 60000 none [⟨false, 0, some GoError.eof, 0, none⟩]).2 ∧
    Action.write 2 2 (some (GoError.mk "boom".toList)) ∈
      (doCopyLoop 60000 none [⟨false, 2, none, 2, some (GoError.mk "boom".toList)⟩,
        ⟨false, 0, some GoError.eof, 0, none⟩]).1 :=
  full_write_error_discarded 60000 ⟨false, 2, none, 2, some (GoError.mk "boom".toList)⟩
    [⟨false, 0, some GoError.eof, 0, none⟩] (GoError.mk "boom".toList)
    (by decide) rfl rfl rfl

end Netx
